import Mathlib

/-
  A shallow embedding of the simple-example halo2 circuit
  (src/simple-example/src/lib.rs and src/simple-example/src/main.rs).

  The chip instructions (load_private, load_constant, mul, expose_public),
  the gate registered by FieldChip.configure and the instruction sequence of
  MyCircuit.synthesize are translated directly from the source.  The
  sequential region layouter and the constraint-checking verifier live in the
  external halo2 library and are modelled from the spec (sections 4.3 and
  4.5): regions are placed back to back in call order, and verification runs
  a gate pass, a copy pass and a public-input pass, returning the full list
  of violations (empty list means success).
-/

namespace SimpleExample

/-- Column identities of this circuit: the two advice columns and the fixed
constants column allocated in MyCircuit.configure.  The instance column is
tracked separately, through the cell-to-instance-row constraints. -/
inductive Col : Type
  | advice : Fin 2 → Col
  | fixed : Col
deriving DecidableEq

/-- A cell is a column together with an absolute row index. -/
abbrev Cell : Type := Col × Nat

/-- The handle returned by chip instructions (struct Number wrapping an
AssignedCell): the cell the value was placed in together with the carried
value; none models Value.unknown. -/
structure Number (F : Type) where
  cell : Cell
  value : Option F

/-- Gate expressions: queries of an advice column at a relative row offset,
the query of the multiplication selector, products and differences.  This is
the fragment of the halo2 expression language that configure uses. -/
inductive Expr : Type
  | adviceQ : Fin 2 → Nat → Expr
  | selQ : Expr
  | mulE : Expr → Expr → Expr
  | subE : Expr → Expr → Expr

/-- The polynomial of the gate registered by FieldChip.configure: with lhs
the query of advice column 0 at the current row, rhs the query of advice
column 1 at the current row and out the query of advice column 0 at the
next row, the expression is selQ * (lhs * rhs - out). -/
def mulGate : Expr :=
  .mulE .selQ (.subE (.mulE (.adviceQ 0 0) (.adviceQ 1 0)) (.adviceQ 0 1))

/-- The part of the configuration that verification consumes: the list of
registered gates, each a name paired with its polynomial expression. -/
structure FieldConfig where
  gates : List (String × Expr)

/-- FieldChip.configure registers exactly one gate, named mul. -/
def configure : FieldConfig :=
  { gates := [("mul", mulGate)] }

/-- The synthesis state: the next free row of the sequential layouter, the
region names in invocation order, the assignment table as an association
list (most recent assignment first, so reassigning a cell shadows the old
value), the rows at which the multiplication selector is enabled, the
declared equality constraints, and the cell-to-instance-row constraints.
Modelled from the spec: the region and layouter bookkeeping (sequential,
back-to-back region placement) is described in spec section 4.3 and lives
in the external halo2 library, not in this repository. -/
structure SynthState (F : Type) where
  nextRow : Nat
  regions : List String
  assigns : List (Cell × Option F)
  selOn : List Nat
  copies : List (Cell × Cell)
  instCopies : List (Cell × Nat)

/-- The empty synthesis state, before any instruction has run. -/
def init (F : Type) : SynthState F :=
  ⟨0, [], [], [], [], []⟩

/-- The value currently stored at a cell: the most recent assignment wins;
none when the cell was never assigned. -/
def cellVal {F : Type} (st : SynthState F) (c : Cell) : Option F :=
  match st.assigns.find? (fun p => decide (p.1 = c)) with
  | some p => p.2
  | none => none

/-- Multiplication of carried values, propagating unknown (the product of
two Value wrappers in the source). -/
def omul {F : Type} [Mul F] (x y : Option F) : Option F :=
  x.bind fun xv => y.map fun yv => xv * yv

/-- Subtraction on optional values, propagating unknown. -/
def osub {F : Type} [Sub F] (x y : Option F) : Option F :=
  x.bind fun xv => y.map fun yv => xv - yv

/-- FieldChip.load_private: a fresh one-row region that assigns the value to
advice column 0 at offset 0 and returns a handle to that cell. -/
def load_private {F : Type} (st : SynthState F) (v : Option F) :
    SynthState F × Number F :=
  let r := st.nextRow
  ({ st with
      nextRow := r + 1
      regions := st.regions ++ ["load private"]
      assigns := ((Col.advice 0, r), v) :: st.assigns },
   ⟨(Col.advice 0, r), v⟩)

/-- FieldChip.load_constant: a fresh one-row region that assigns the
constant to advice column 0 at offset 0, bakes the same constant into a
fixed-column cell and copy-constrains the two cells.  Modelled from the
spec: the placement of the baked constant into the fixed column is done by
the external layouter (assign_advice_from_constant); here it lands in the
fixed column at the same row as the advice cell. -/
def load_constant {F : Type} (st : SynthState F) (c : F) :
    SynthState F × Number F :=
  let r := st.nextRow
  ({ st with
      nextRow := r + 1
      regions := st.regions ++ ["load constant"]
      assigns := ((Col.advice 0, r), some c) :: ((Col.fixed, r), some c) :: st.assigns
      copies := ((Col.advice 0, r), (Col.fixed, r)) :: st.copies },
   ⟨(Col.advice 0, r), some c⟩)

/-- FieldChip.mul, exactly as the source writes it: enable the selector at
offset 0; copy a into advice column 0 at offset 0 and b into advice column
1 at offset 0 (each copy both assigns the value and records an equality
constraint with the source cell); then assign the recomputed product
a.value * b.value to advice column 1 at offset 0 — the code, unlike its own
comment, writes the product over the cell the rhs copy just filled — and
return a handle to that cell.  Only offset 0 is touched, so the sequential
layouter advances by one row. -/
def mul {F : Type} [Mul F] (st : SynthState F) (a b : Number F) :
    SynthState F × Number F :=
  let r := st.nextRow
  let v := omul a.value b.value
  ({ st with
      nextRow := r + 1
      regions := st.regions ++ ["mul"]
      selOn := r :: st.selOn
      assigns := ((Col.advice 1, r), v)
        :: ((Col.advice 1, r), b.value)
        :: ((Col.advice 0, r), a.value)
        :: st.assigns
      copies := (b.cell, (Col.advice 1, r)) :: (a.cell, (Col.advice 0, r)) :: st.copies },
   ⟨(Col.advice 1, r), v⟩)

/-- FieldChip.expose_public: constrain the cell of the handle to the given
row of the instance column. -/
def expose_public {F : Type} (st : SynthState F) (n : Number F) (row : Nat) :
    SynthState F :=
  { st with instCopies := (n.cell, row) :: st.instCopies }

/-- MyCircuit.synthesize: load a, load b, load the constant, then
ab = mul a b, absq = mul ab ab, c = mul constant absq, and expose c at
instance row 0 — the fixed instruction sequence of the source. -/
def synthesize {F : Type} [Mul F] (k : F) (a b : Option F) : SynthState F :=
  let p1 := load_private (init F) a
  let p2 := load_private p1.1 b
  let p3 := load_constant p2.1 k
  let p4 := mul p3.1 p1.2 p2.2
  let p5 := mul p4.1 p4.2 p4.2
  let p6 := mul p5.1 p3.2 p5.2
  expose_public p6.1 p6.2 0

/-- Verification failures, as named in spec sections 4.5 and 7. -/
inductive Violation : Type
  | GateViolation : String → Nat → Violation
  | UnassignedCell : String → Nat → Violation
  | CopyViolation : Cell → Cell → Violation
  | PublicInputMismatch : Nat → Violation
deriving DecidableEq

/-- Evaluate a gate expression at a row: an advice query reads the table at
the shifted row, the selector query is 1 at enabled rows and 0 elsewhere,
and an unassigned queried advice cell poisons the whole evaluation. -/
def evalExpr {F : Type} [Field F] (st : SynthState F) (r : Nat) : Expr → Option F
  | .adviceQ i rot => cellVal st (Col.advice i, r + rot)
  | .selQ => some (if r ∈ st.selOn then 1 else 0)
  | .mulE e1 e2 => omul (evalExpr st r e1) (evalExpr st r e2)
  | .subE e1 e2 => osub (evalExpr st r e1) (evalExpr st r e2)

/-- Modelled from the spec: pass (a) of the verifier (section 4.5).  For
every registered gate and every used row where the selector of the gate is
active, evaluate the polynomial; a gate referencing a cell never written is
fatal (section 7), and a nonzero value is a gate violation. -/
def gateChecks {F : Type} [Field F] [DecidableEq F] (st : SynthState F) :
    List Violation :=
  configure.gates.flatMap fun g =>
    (List.range st.nextRow).filterMap fun r =>
      if r ∈ st.selOn then
        match evalExpr st r g.2 with
        | none => some (.UnassignedCell g.1 r)
        | some v => if v = 0 then none else some (.GateViolation g.1 r)
      else none

/-- Modelled from the spec: pass (b) of the verifier.  Every declared
equality constraint whose two cells hold different values is a copy
violation. -/
def copyChecks {F : Type} [DecidableEq F] (st : SynthState F) : List Violation :=
  st.copies.filterMap fun p =>
    if cellVal st p.1 = cellVal st p.2 then none else some (.CopyViolation p.1 p.2)

/-- Modelled from the spec: pass (c) of the verifier.  Every cell bound to
an instance row whose value differs from the public input at that row is a
public-input mismatch. -/
def instChecks {F : Type} [DecidableEq F] (st : SynthState F) (pub : List F) :
    List Violation :=
  st.instCopies.filterMap fun p =>
    if cellVal st p.1 = pub.get? p.2 then none else some (.PublicInputMismatch p.2)

/-- Modelled from the spec: the verifier runs the gate, copy and
public-input passes over the finished assignment table and returns the full
list of violations; the empty list is success. -/
def verify {F : Type} [Field F] [DecidableEq F] (st : SynthState F)
    (pub : List F) : List Violation :=
  gateChecks st ++ copyChecks st ++ instChecks st pub

/-- Running the verifier twice on the same table and public inputs. -/
def verifyTwice {F : Type} [Field F] [DecidableEq F] (st : SynthState F)
    (pub : List F) : List Violation × List Violation :=
  (verify st pub, verify st pub)

/-- Overwrite the stored value of one cell, leaving everything else in the
state untouched (the mutation used by the copy-constraint law of the
spec). -/
def setCell {F : Type} (st : SynthState F) (c : Cell) (v : Option F) :
    SynthState F :=
  { st with assigns := (c, v) :: st.assigns }

/-- The witness-independent layout of a synthesis state: everything except
the stored field values. -/
def shape {F : Type} (st : SynthState F) :
    Nat × List String × List Cell × List Nat × List (Cell × Cell) × List (Cell × Nat) :=
  (st.nextRow, st.regions, st.assigns.map Prod.fst, st.selOn, st.copies, st.instCopies)

/-- The top-level circuit struct: the fixed constant and the two private
values. -/
structure MyCircuit (F : Type) where
  constant : F
  a : Option F
  b : Option F

/-- MyCircuit.new. -/
def MyCircuit.new {F : Type} (constant : F) (a b : Option F) : MyCircuit F :=
  ⟨constant, a, b⟩

/-- The derived Default instance of the source: zero constant and unknown
private values. -/
def MyCircuit.default (F : Type) [Zero F] : MyCircuit F :=
  ⟨0, none, none⟩

/-- Circuit.without_witnesses for MyCircuit: the source returns
Self.default(), discarding the constant as well as the witnesses. -/
def without_witnesses {F : Type} [Zero F] (_c : MyCircuit F) : MyCircuit F :=
  MyCircuit.default F

instance : Fact (Nat.Prime 101) := ⟨by norm_num⟩

/-- The state and handle produced by loading the privates 2 and 3 (rows 0
and 1) and then running mul on their handles, over ZMod 101; the mul region
anchors at row 2. -/
def mulExample : SynthState (ZMod 101) × Number (ZMod 101) :=
  let p1 := load_private (init (ZMod 101)) (some 2)
  let p2 := load_private p1.1 (some 3)
  mul p2.1 p1.2 p2.2

/-- A concrete state used by witnesses: one enabled multiplication row whose
three queried cells are assigned consistently. -/
def stSel : SynthState (ZMod 101) :=
  ⟨2, [],
   [((Col.advice 0, 0), some 2), ((Col.advice 1, 0), some 3), ((Col.advice 0, 1), some 6)],
   [0], [], []⟩

/-- A concrete state used by witnesses: mutually inconsistent advice values
at a row where the selector is off. -/
def stNoSel : SynthState (ZMod 101) :=
  ⟨2, [],
   [((Col.advice 0, 0), some 5), ((Col.advice 1, 0), some 7), ((Col.advice 0, 1), some 9)],
   [], [], []⟩

/-- Unfolding of the gate pass to the single registered gate. -/
lemma gateChecks_eq {F : Type} [Field F] [DecidableEq F] (st : SynthState F) :
    gateChecks st = (List.range st.nextRow).filterMap fun r =>
      if r ∈ st.selOn then
        match evalExpr st r mulGate with
        | none => some (.UnassignedCell "mul" r)
        | some v => if v = 0 then none else some (.GateViolation "mul" r)
      else none := by
  simp [gateChecks, configure]

/-- A gate violation reported by the gate pass only arises at a row where
the selector is enabled. -/
lemma mem_gateChecks_selOn {F : Type} [Field F] [DecidableEq F]
    {st : SynthState F} {name : String} {r : Nat}
    (h : Violation.GateViolation name r ∈ gateChecks st) : r ∈ st.selOn := by
  rw [gateChecks_eq, List.mem_filterMap] at h
  obtain ⟨r2, _, hf⟩ := h
  by_cases hsel : r2 ∈ st.selOn
  · rw [if_pos hsel] at hf
    split at hf
    · exact absurd hf (by simp)
    · split at hf
      · exact absurd hf (by simp)
      · simp only [Option.some.injEq, Violation.GateViolation.injEq] at hf
        exact hf.2 ▸ hsel
  · rw [if_neg hsel] at hf
    exact absurd hf (by simp)

/-- Everything the copy pass reports is a copy violation. -/
lemma mem_copyChecks_shape {F : Type} [DecidableEq F] {st : SynthState F}
    {v : Violation} (h : v ∈ copyChecks st) :
    ∃ c1 c2, v = Violation.CopyViolation c1 c2 := by
  rw [copyChecks, List.mem_filterMap] at h
  obtain ⟨p, _, hf⟩ := h
  by_cases hc : cellVal st p.1 = cellVal st p.2
  · rw [if_pos hc] at hf
    exact absurd hf (by simp)
  · rw [if_neg hc] at hf
    exact ⟨p.1, p.2, (Option.some.injEq _ _).mp hf |>.symm⟩

/-- Everything the public-input pass reports is a public-input mismatch. -/
lemma mem_instChecks_shape {F : Type} [DecidableEq F] {st : SynthState F}
    {pub : List F} {v : Violation} (h : v ∈ instChecks st pub) :
    ∃ row, v = Violation.PublicInputMismatch row := by
  rw [instChecks, List.mem_filterMap] at h
  obtain ⟨p, _, hf⟩ := h
  by_cases hc : cellVal st p.1 = pub.get? p.2
  · rw [if_pos hc] at hf
    exact absurd hf (by simp)
  · rw [if_neg hc] at hf
    exact ⟨p.2, (Option.some.injEq _ _).mp hf |>.symm⟩

/-- The value most recently assigned to a cell is the value read back. -/
lemma cellVal_mk_cons_self {F : Type} (n : Nat) (rg : List String) (c : Cell)
    (v : Option F) (rest : List (Cell × Option F)) (sel : List Nat)
    (cps : List (Cell × Cell)) (ic : List (Cell × Nat)) :
    cellVal ⟨n, rg, (c, v) :: rest, sel, cps, ic⟩ c = v := by
  simp [cellVal]

/-- Claim C1 (code-bug evidence): running mul on handles carrying 2 and 3
(loaded at rows 0 and 1, so the mul region anchors at row 2), the product is
not assigned to advice column 0 at row offset +1 — that cell stays
unassigned — and the returned handle instead refers to advice column 1 at
offset 0, the very cell b was just copy-constrained into, which now stores
the product 6. -/
theorem mul_out_written_to_advice1_row0 :
    mulExample.2.cell = (Col.advice 1, 2) ∧
    cellVal mulExample.1 (Col.advice 0, 3) = none ∧
    cellVal mulExample.1 (Col.advice 1, 2) = some 6 ∧
    (((Col.advice 0, 1) : Cell), ((Col.advice 1, 2) : Cell)) ∈ mulExample.1.copies := by
  decide

/-- Claim C2 (code-bug evidence): in the concrete scenario of the spec
(field ZMod 101, k = 7, a = 2, b = 3, public input 50 = 7 * 4 * 9 mod 101),
verification of the synthesized circuit does not return success; in
particular the multiplication gate is violated at row 3. -/
theorem concrete_scenario_verification_fails :
    Violation.GateViolation "mul" 3
      ∈ verify (synthesize (7 : ZMod 101) (some 2) (some 3)) [50] ∧
    verify (synthesize (7 : ZMod 101) (some 2) (some 3)) [50] ≠ [] := by
  decide

/-- Claim C3: for all field values a, b, k and any nonzero perturbation δ,
verifying the synthesized circuit against the public input
k * a ^ 2 * b ^ 2 + δ reports a public-input mismatch at instance row 0 and
never returns success (the empty violation list). -/
theorem perturbed_public_input_mismatch {F : Type} [Field F] [DecidableEq F]
    (a b k δ : F) (hδ : δ ≠ 0) :
    Violation.PublicInputMismatch 0
      ∈ verify (synthesize k (some a) (some b)) [k * a ^ 2 * b ^ 2 + δ] ∧
    verify (synthesize k (some a) (some b)) [k * a ^ 2 * b ^ 2 + δ] ≠ [] := by
  have hval : cellVal (synthesize k (some a) (some b)) (Col.advice 1, 5)
      = some (k * (a * b * (a * b))) := rfl
  have hic : (synthesize k (some a) (some b)).instCopies
      = [((Col.advice 1, 5), 0)] := rfl
  have hne : k * (a * b * (a * b)) ≠ k * a ^ 2 * b ^ 2 + δ := by
    intro h
    apply hδ
    have h2 : k * a ^ 2 * b ^ 2 + δ = k * a ^ 2 * b ^ 2 + 0 := by
      rw [← h]; ring
    exact add_left_cancel h2
  have hmem : Violation.PublicInputMismatch 0
      ∈ instChecks (synthesize k (some a) (some b)) [k * a ^ 2 * b ^ 2 + δ] := by
    simp [instChecks, hic, hval, hne]
  have hfull : Violation.PublicInputMismatch 0
      ∈ verify (synthesize k (some a) (some b)) [k * a ^ 2 * b ^ 2 + δ] := by
    simp only [verify, List.mem_append]
    tauto
  exact ⟨hfull, List.ne_nil_of_mem hfull⟩

/-- Witness for claim C3 at a = 2, b = 3, k = 7, δ = 1 over ZMod 101. -/
theorem perturbed_public_input_mismatch_holds :
    Violation.PublicInputMismatch 0
      ∈ verify (synthesize (7 : ZMod 101) (some 2) (some 3)) [7 * 2 ^ 2 * 3 ^ 2 + 1] ∧
    verify (synthesize (7 : ZMod 101) (some 2) (some 3)) [7 * 2 ^ 2 * 3 ^ 2 + 1] ≠ [] :=
  perturbed_public_input_mismatch 2 3 7 1 (by decide)

/-- Claim C4: the configuration registers exactly the one gate named mul,
and at any row r where its three queried cells hold values l, rv and o (the
two advice columns at r and advice column 0 at r + 1), the registered
polynomial evaluates to selector * (l * rv - o); when the selector is
enabled the polynomial vanishes exactly when l * rv = o, so the gate
relates the cells of rows r and r + 1. -/
theorem mul_gate_unique_and_rows {F : Type} [Field F] [DecidableEq F]
    (st : SynthState F) (r : Nat) (l rv o : F)
    (hl : cellVal st (Col.advice 0, r) = some l)
    (hr : cellVal st (Col.advice 1, r) = some rv)
    (ho : cellVal st (Col.advice 0, r + 1) = some o) :
    configure.gates = [("mul", mulGate)] ∧
    evalExpr st r mulGate = some ((if r ∈ st.selOn then (1 : F) else 0) * (l * rv - o)) ∧
    (r ∈ st.selOn → (evalExpr st r mulGate = some 0 ↔ l * rv = o)) := by
  have he : evalExpr st r mulGate
      = some ((if r ∈ st.selOn then (1 : F) else 0) * (l * rv - o)) := by
    simp [evalExpr, mulGate, omul, osub, hl, hr, ho]
  refine ⟨rfl, he, fun hsel => ?_⟩
  rw [he, if_pos hsel, one_mul]
  simp [sub_eq_zero]

/-- Witness for claim C4 on a concrete state with an enabled row. -/
theorem mul_gate_unique_and_rows_holds :
    configure.gates = [("mul", mulGate)] ∧
    evalExpr stSel 0 mulGate
      = some ((if 0 ∈ stSel.selOn then (1 : ZMod 101) else 0) * (2 * 3 - 6)) ∧
    (0 ∈ stSel.selOn → (evalExpr stSel 0 mulGate = some 0 ↔ (2 : ZMod 101) * 3 = 6)) :=
  mul_gate_unique_and_rows stSel 0 2 3 6 (by decide) (by decide) (by decide)

/-- Claim C5: the selector appears multiplicatively in the multiplication
gate, so at any row where the selector is not enabled the registered
polynomial evaluates to zero regardless of the (possibly inconsistent)
values held in the advice columns, and the verifier never reports a gate
violation for that row. -/
theorem selector_off_gate_vanishes {F : Type} [Field F] [DecidableEq F]
    (st : SynthState F) (r : Nat) (l rv o : F)
    (hsel : r ∉ st.selOn)
    (hl : cellVal st (Col.advice 0, r) = some l)
    (hr : cellVal st (Col.advice 1, r) = some rv)
    (ho : cellVal st (Col.advice 0, r + 1) = some o) :
    evalExpr st r mulGate = some 0 ∧
    ∀ pub : List F, Violation.GateViolation "mul" r ∉ verify st pub := by
  constructor
  · simp [evalExpr, mulGate, omul, osub, hl, hr, ho, hsel]
  · intro pub hmem
    simp only [verify, List.mem_append] at hmem
    rcases hmem with (hg | hc) | hi
    · exact hsel (mem_gateChecks_selOn hg)
    · obtain ⟨c1, c2, h⟩ := mem_copyChecks_shape hc
      exact Violation.noConfusion h
    · obtain ⟨row, h⟩ := mem_instChecks_shape hi
      exact Violation.noConfusion h

/-- Witness for claim C5 on a concrete state with inconsistent advice
values (5 * 7 is not 9) at a row whose selector is off. -/
theorem selector_off_gate_vanishes_holds :
    evalExpr stNoSel 0 mulGate = some 0 ∧
    Violation.GateViolation "mul" 0 ∉ verify stNoSel [] :=
  ⟨(selector_off_gate_vanishes stNoSel 0 5 7 9 (by decide) (by decide) (by decide)
      (by decide)).1,
   (selector_off_gate_vanishes stNoSel 0 5 7 9 (by decide) (by decide) (by decide)
      (by decide)).2 []⟩

/-- Claim C6: synthesize invokes the instructions in the fixed sequence
load a, load b, load the constant, three multiplications, expose c; for any
two witness assignments (including unknown values) the resulting region
names, row count, assigned-cell layout, selector activations, copy
constraints and instance bindings coincide — only the stored field values
differ. -/
theorem synthesize_layout_value_independent {F : Type} [Mul F]
    (k k2 : F) (a b a2 b2 : Option F) :
    (synthesize k a b).regions
      = ["load private", "load private", "load constant", "mul", "mul", "mul"] ∧
    shape (synthesize k a b) = shape (synthesize k2 a2 b2) :=
  ⟨rfl, rfl⟩

/-- Claim C7: load_constant stores the constant in an advice cell that is
copy-constrained to a fixed cell holding the same constant; overwriting the
advice cell with any different value makes verification fail with a copy
violation, so the prover cannot substitute another value. -/
theorem load_constant_pins_value {F : Type} [Field F] [DecidableEq F]
    (c v : F) (hvc : v ≠ c) (pub : List F) :
    cellVal (load_constant (init F) c).1 (load_constant (init F) c).2.cell = some c ∧
    cellVal (load_constant (init F) c).1 (Col.fixed, 0) = some c ∧
    ((load_constant (init F) c).2.cell, ((Col.fixed, 0) : Cell))
      ∈ (load_constant (init F) c).1.copies ∧
    Violation.CopyViolation ((Col.advice 0, 0) : Cell) ((Col.fixed, 0) : Cell)
      ∈ verify (setCell (load_constant (init F) c).1 (Col.advice 0, 0) (some v)) pub ∧
    verify (setCell (load_constant (init F) c).1 (Col.advice 0, 0) (some v)) pub ≠ [] := by
  have h1 : cellVal (setCell (load_constant (init F) c).1 (Col.advice 0, 0) (some v))
      (Col.advice 0, 0) = some v := rfl
  have h2 : cellVal (setCell (load_constant (init F) c).1 (Col.advice 0, 0) (some v))
      (Col.fixed, 0) = some c := rfl
  have hcopies : (setCell (load_constant (init F) c).1 (Col.advice 0, 0) (some v)).copies
      = [((Col.advice 0, 0), (Col.fixed, 0))] := rfl
  have hcc : copyChecks (setCell (load_constant (init F) c).1 (Col.advice 0, 0) (some v))
      = [Violation.CopyViolation (Col.advice 0, 0) (Col.fixed, 0)] := by
    simp [copyChecks, hcopies, h1, h2, hvc]
  have hgc : gateChecks (setCell (load_constant (init F) c).1 (Col.advice 0, 0) (some v))
      = [] := by
    rw [gateChecks_eq]
    have hsel : (setCell (load_constant (init F) c).1 (Col.advice 0, 0) (some v)).selOn
        = [] := rfl
    simp [hsel]
  have hic : instChecks (setCell (load_constant (init F) c).1 (Col.advice 0, 0) (some v))
      pub = [] := by
    have h0 : (setCell (load_constant (init F) c).1 (Col.advice 0, 0) (some v)).instCopies
        = [] := rfl
    simp [instChecks, h0]
  have hv : verify (setCell (load_constant (init F) c).1 (Col.advice 0, 0) (some v)) pub
      = [Violation.CopyViolation (Col.advice 0, 0) (Col.fixed, 0)] := by
    rw [verify, hgc, hcc, hic]
    rfl
  refine ⟨rfl, rfl, List.mem_singleton_self _, ?_, ?_⟩
  · rw [hv]
    exact List.mem_singleton_self _
  · rw [hv]
    simp

/-- Witness for claim C7 at constant 7 overwritten with 8 over ZMod 101. -/
theorem load_constant_pins_value_holds :
    Violation.CopyViolation ((Col.advice 0, 0) : Cell) ((Col.fixed, 0) : Cell)
      ∈ verify (setCell (load_constant (init (ZMod 101)) 7).1 (Col.advice 0, 0) (some 8)) [] ∧
    verify (setCell (load_constant (init (ZMod 101)) 7).1 (Col.advice 0, 0) (some 8)) [] ≠ [] :=
  ⟨(load_constant_pins_value 7 8 (by decide) []).2.2.2.1,
   (load_constant_pins_value 7 8 (by decide) []).2.2.2.2⟩

/-- Claim C8: verification is deterministic and stateless — running the
verifier twice on the same assignment table and the same public input
vector yields the same outcome both times. -/
theorem verify_deterministic {F : Type} [Field F] [DecidableEq F]
    (st : SynthState F) (pub : List F) :
    (verifyTwice st pub).1 = (verifyTwice st pub).2 :=
  rfl

/-- Claim C9: without_witnesses returns the default circuit, whose constant
is the zero of the field rather than the constant of the original circuit;
whenever the original constant is nonzero the two constants differ. -/
theorem without_witnesses_default {F : Type} [Zero F] (c : MyCircuit F) :
    without_witnesses c = MyCircuit.default F ∧
    (without_witnesses c).constant = 0 ∧
    (c.constant ≠ 0 → (without_witnesses c).constant ≠ c.constant) :=
  ⟨rfl, rfl, fun h heq => h heq.symm⟩

/-- Witness for claim C9 on a circuit with constant 7 over ZMod 101. -/
theorem without_witnesses_default_holds :
    (without_witnesses (MyCircuit.new (7 : ZMod 101) none none)).constant
      ≠ (MyCircuit.new (7 : ZMod 101) none none).constant :=
  (without_witnesses_default (MyCircuit.new (7 : ZMod 101) none none)).2.2 (by decide)

/-- Claim C10: the handle returned by mul carries the product of the two
carried values and refers to advice column 1 at the anchor row of the mul
region — the cell into which b was just copy-constrained — and that cell
now stores the product while the equality constraint with the original cell
of b remains declared. -/
theorem mul_handle_product_cell {F : Type} [Mul F]
    (st : SynthState F) (a b : Number F) :
    (mul st a b).2.cell = (Col.advice 1, st.nextRow) ∧
    (mul st a b).2.value = omul a.value b.value ∧
    (b.cell, ((Col.advice 1, st.nextRow) : Cell)) ∈ (mul st a b).1.copies ∧
    cellVal (mul st a b).1 (Col.advice 1, st.nextRow) = omul a.value b.value := by
  refine ⟨rfl, rfl, List.mem_cons_self _ _, ?_⟩
  exact cellVal_mk_cons_self _ _ _ _ _ _ _ _

end SimpleExample
